import Mathlib

/-!
Verification of the shl-server event/player/stats services.

The Rust sources (`event_service.rs`, `player_service.rs`, `stats_service.rs`)
are embedded shallowly: strings are `String` (operated on through their
`List Char` contents, with helper functions mirroring the exact semantics of
Rust's `str::split`, `str::split_once`, `str::replace` and `i32::from_str`),
the keyed store is passed explicitly as state, and `i32` arithmetic is `Int`
reduced modulo `2^32` where overflow matters.
-/

set_option autoImplicit false

namespace Shl

/-- Mirrors Rust `<[_]>::starts_with` on character slices: `startsWith p s`
is `true` iff `p` is a prefix of `s`. -/
def startsWith : List Char → List Char → Bool
  | [], _ => true
  | _ :: _, [] => false
  | p :: ps, c :: cs => p == c && startsWith ps cs

/-- Mirrors Rust `str::split_once(sep)` (for a non-empty needle `sep`):
splits at the first occurrence of `sep`, returning the text before and after
it, or `none` when `sep` does not occur. -/
def splitOnceList (sep : List Char) : List Char → Option (List Char × List Char)
  | [] => none
  | c :: rest =>
    if startsWith sep (c :: rest) then some ([], (c :: rest).drop sep.length)
    else (splitOnceList sep rest).map (fun p => (c :: p.1, p.2))

/-- `str::split_once` lifted to `String`. -/
def splitOnce (sep s : String) : Option (String × String) :=
  (splitOnceList sep.data s.data).map (fun p => (⟨p.1⟩, ⟨p.2⟩))

/-- Mirrors Rust `str::split(c)`: splits at every occurrence of the character,
keeping empty segments (so the result is never the empty list; `""` gives
`[""]`). -/
def splitChar (sep : Char) : List Char → List (List Char)
  | [] => [[]]
  | c :: rest =>
    if c == sep then [] :: splitChar sep rest
    else
      match splitChar sep rest with
      | [] => [[c]]
      | h :: t => (c :: h) :: t

/-- Recursion core of `removeAll`; the fuel is structurally consumed and
always suffices because every step shortens the string by at least one
character (the pattern is non-empty whenever a match is skipped). -/
def removeAllGo (pat : List Char) : Nat → List Char → List Char
  | _, [] => []
  | 0, l => l
  | fuel + 1, c :: rest =>
    if pat ≠ [] ∧ startsWith pat (c :: rest) then
      removeAllGo pat fuel ((c :: rest).drop pat.length)
    else c :: removeAllGo pat fuel rest

/-- Mirrors Rust `str::replace(pat, "")` for a non-empty `pat`: removes all
non-overlapping occurrences of `pat`, scanning left to right. -/
def removeAll (pat s : List Char) : List Char :=
  removeAllGo pat s.length s

/-- Numeric value of a list of ASCII digits, most significant first. -/
def digitsToNat (s : List Char) : Nat :=
  s.foldl (fun acc c => acc * 10 + (c.toNat - 48)) 0

/-- Mirrors Rust `i32::from_str`: an optional sign followed by at least one
ASCII digit, rejecting values outside the `i32` range. -/
def parseI32 (s : List Char) : Option Int :=
  let (sign, digits) :=
    match s with
    | '+' :: rest => ((1 : Int), rest)
    | '-' :: rest => ((-1 : Int), rest)
    | _ => ((1 : Int), s)
  if digits ≠ [] ∧ digits.all Char.isDigit then
    let n : Int := sign * (digitsToNat digits : Int)
    if -2147483648 ≤ n ∧ n ≤ 2147483647 then some n else none
  else none

/-- Two's-complement wrap-around of an unbounded integer into `i32`. -/
def wrap32 (n : Int) : Int :=
  (n + 2147483648) % 4294967296 - 2147483648

/-- Rust `s.parse::<i32>().ok().unwrap_or_default()`. -/
def parse_i32_default (s : String) : Int :=
  (parseI32 s.data).getD 0

/-- `models::ParseStringError` (declared outside the embedded sources; it
carries no data that the embedded code inspects). -/
structure ParseStringError : Type where
deriving DecidableEq

/-- `event_service::Player`. -/
structure Player where
  first_name : String
  family_name : String
  jersey : String
deriving DecidableEq, Repr

/-- `impl FromStr for Player` (`event_service.rs`): split on single spaces,
first token is the jersey, second the first name, and the family name is the
original string with every occurrence of `"<jersey> <first_name>"` removed.
Always returns `Ok`. -/
def Player.from_str (s : String) : Except ParseStringError Player :=
  let parts : List (List Char) := splitChar ' ' s.data
  let jersey : List Char := parts.head?.getD []
  let first_name : List Char := (parts.get? 1).getD []
  let family_name : List Char := removeAll (jersey ++ ' ' :: first_name) s.data
  .ok { jersey := ⟨jersey⟩, first_name := ⟨first_name⟩, family_name := ⟨family_name⟩ }

/-- Rust `s.parse::<Player>().ok()`. -/
def parse_player (s : String) : Option Player :=
  (Player.from_str s).toOption

end Shl

namespace Shl.external

/-- Modelled from the spec: `models2::external::event::Penalty` is outside the
embedded sources; only its `team` field is read by the embedded code. -/
structure Penalty where
  team : String
deriving DecidableEq, Repr

end Shl.external

namespace Shl

/-- `event_service::PenaltyInfo`. -/
structure PenaltyInfo where
  team : String
  player : Option Player
  reason : Option String
  penalty : Option String
deriving DecidableEq, Repr

/-- `PenaltyInfo::new` (`event_service.rs`): split the description on the
first `"utvisas "`; the part after it is split on the first comma into
penalty and reason; the part before it is parsed as a `Player`. -/
def PenaltyInfo.new (description : String) (p : external.Penalty) : PenaltyInfo :=
  let split := splitOnce "utvisas " description
  let player_info : Option String := split.map (fun e => e.1)
  let penalty_info : Option String := split.map (fun e => e.2)
  let pr :=
    match splitOnce "," (penalty_info.getD "") with
    | some e => (some e.1, some e.2)
    | none => (none, none)
  let player := parse_player (player_info.getD "")
  { team := p.team, player := player, reason := pr.2, penalty := pr.1 }

/-- `player_service::parse_toi`: split on the first colon (defaulting both
parts to `"0"` when there is no colon), parse each side as an `i32`
defaulting to 0, and combine as minutes×60 + seconds in `i32` arithmetic. -/
def parse_toi (s : String) : Int :=
  let p := (splitOnce ":" s).getD ("0", "0")
  wrap32 (parse_i32_default p.1 * 60 + parse_i32_default p.2)

end Shl

namespace Shl.external

/-- Modelled from the spec: rink location of `models2::external::event`; the
source stores `f32` coordinates that the embedded code only copies, never
computes with, so they are carried as integers. -/
structure Location where
  x : Int
  y : Int
deriving DecidableEq, Repr

/-- Modelled from the spec: the extra payload of a raw goal event
(`scorerLong`, `teamAdvantage`, `assist`, running score; the source's
`homeForward.to_num()` / `homeAgainst.to_num()` numeric wrappers are carried
as integers). -/
structure GoalExtra where
  scorerLong : String
  teamAdvantage : String
  assist : String
  homeForward : Int
  homeAgainst : Int
deriving DecidableEq, Repr

/-- Modelled from the spec: `models2::external::event::Goal`. -/
structure Goal where
  team : String
  extra : GoalExtra
  location : Location
deriving DecidableEq, Repr

/-- Modelled from the spec: `models2::external::event::Shot`. -/
structure Shot where
  team : String
  location : Location
deriving DecidableEq, Repr

/-- Modelled from the spec: the extra payload of a raw period-marker event,
holding the embedded game-status string. -/
structure PeriodExtra where
  gameStatus : String
deriving DecidableEq, Repr

/-- Modelled from the spec: the payload of `PlayByPlayType::Period`. -/
structure Period where
  extra : PeriodExtra
deriving DecidableEq, Repr

/-- Modelled from the spec: `models2::external::event::PlayByPlayType`, the
tagged payload of a raw play-by-play event; informational variants carry
text the embedded code never inspects. -/
inductive PlayByPlayType where
  | General (s : String)
  | Livefeed (s : String)
  | GoolkeeperEvent (s : String)
  | Goal (a : Goal)
  | Shot (a : Shot)
  | ShotBlocked (a : Shot)
  | ShotWide (a : Shot)
  | ShotIron (a : Shot)
  | PenaltyShot (a : Shot)
  | ShootoutPenaltyShot (a : Shot)
  | Penalty (a : Penalty)
  | Timeout (s : String)
  | Period (a : Period)
deriving DecidableEq, Repr

/-- Modelled from the spec: `models2::external::event::PlayByPlay`, the raw
provider record (`eventId` is an `i32`, `period.to_num()` is carried as the
integer phase). -/
structure PlayByPlay where
  eventId : Int
  revision : Nat
  period : Int
  gametime : String
  description : String
  «class» : PlayByPlayType
deriving DecidableEq, Repr

end Shl.external

namespace Shl

/-- `game_report_service::GameStatus` is outside the embedded sources; the
embedded code only produces it via `period.to_num().into()`, so it is carried
as the numeric phase. -/
abbrev GameStatus := Int

/-- `event_service::GoalInfo` (the `f32` location is carried as integers). -/
structure GoalInfo where
  team : String
  player : Option Player
  team_advantage : String
  assist : Option String
  home_team_result : Int
  away_team_result : Int
  location : external.Location
deriving DecidableEq, Repr

/-- `GoalInfo::new` (`event_service.rs`). -/
def GoalInfo.new (a : external.Goal) : GoalInfo :=
  { team := a.team,
    player := parse_player a.extra.scorerLong,
    team_advantage := a.extra.teamAdvantage,
    assist := some a.extra.assist,
    home_team_result := a.extra.homeForward,
    away_team_result := a.extra.homeAgainst,
    location := { x := a.location.x, y := a.location.y } }

/-- `event_service::ShotInfo`. -/
structure ShotInfo where
  team : String
  location : external.Location
deriving DecidableEq, Repr

/-- `ShotInfo::new` (`event_service.rs`). -/
def ShotInfo.new (info : external.Shot) : ShotInfo :=
  { team := info.team, location := { x := info.location.x, y := info.location.y } }

/-- `event_service::GameEndInfo`. -/
structure GameEndInfo where
  winner : Option String
deriving DecidableEq, Repr

/-- `event_service::ApiEventType`. -/
inductive ApiEventType where
  | Goal (info : GoalInfo)
  | PeriodEnd
  | PeriodStart
  | GameEnd (info : GameEndInfo)
  | GameStart
  | Penalty (info : PenaltyInfo)
  | Shot (info : ShotInfo)
  | Timeout
  | General
deriving DecidableEq, Repr

/-- `event_service::ApiGameEvent`. -/
structure ApiGameEvent where
  game_uuid : String
  event_id : String
  revision : Nat
  status : GameStatus
  gametime : String
  description : String
  info : ApiEventType
deriving DecidableEq, Repr

/-- `ApiGameEvent::should_publish` (`event_service.rs`). -/
def ApiGameEvent.should_publish (self : ApiGameEvent) : Bool :=
  match self.info with
  | .Goal _ => true
  | .GameStart => true
  | .GameEnd _ => true
  | _ => false

/-- `PlayByPlay::to_type` (`event_service.rs`): classify the raw payload into
a domain variant; the period-marker case compares the embedded game status
against the literal `"Playing"`. -/
def external.PlayByPlay.to_type (self : external.PlayByPlay) : ApiEventType :=
  match self.«class» with
  | .General _ => .General
  | .Livefeed _ => .General
  | .GoolkeeperEvent _ => .General
  | .Goal a => .Goal (GoalInfo.new a)
  | .Shot a => .Shot (ShotInfo.new a)
  | .ShotBlocked a => .Shot (ShotInfo.new a)
  | .ShotWide a => .Shot (ShotInfo.new a)
  | .ShotIron a => .Shot (ShotInfo.new a)
  | .PenaltyShot a => .Shot (ShotInfo.new a)
  | .ShootoutPenaltyShot a => .Shot (ShotInfo.new a)
  | .Penalty a => .Penalty (PenaltyInfo.new self.description a)
  | .Timeout _ => .Timeout
  | .Period a => if a.extra.gameStatus = "Playing" then .PeriodStart else .PeriodEnd

/-- `PlayByPlay::into_mapped_event` (`event_service.rs`); `format!("{}",
eventId)` is decimal `Int` printing. -/
def external.PlayByPlay.into_mapped_event (self : external.PlayByPlay)
    (game_uuid : String) : ApiGameEvent :=
  { game_uuid := game_uuid,
    event_id := toString self.eventId,
    revision := self.revision,
    status := self.period,
    gametime := self.gametime,
    description := self.description,
    info := self.to_type }

/-- Mirrors Rust `Iterator::position`: index of the first element satisfying
the predicate. -/
def position {α : Type} (p : α → Bool) : List α → Option Nat
  | [] => none
  | a :: l => if p a then some 0 else (position p l).map (fun i => i + 1)

/-- `EventService::store_raw` (`event_service.rs`), with the sequence stored
under the game's key in the `v2_events_raw` namespace passed in and the
updated sequence returned alongside the `new_event` flag. -/
def EventService.store_raw (events : List external.PlayByPlay)
    (event : external.PlayByPlay) : List external.PlayByPlay × Bool :=
  match position (fun e => decide (e.eventId = event.eventId)) events with
  | some pos => (events.set pos event, false)
  | none => (events ++ [event], true)

/-- `EventService::store` (`event_service.rs`), with the sequence stored
under the game's key in the `v2_events_2` namespace passed in and the
updated sequence returned alongside the `new_event` flag. -/
def EventService.store (events : List ApiGameEvent)
    (event : ApiGameEvent) : List ApiGameEvent × Bool :=
  match position (fun e => decide (e.event_id = event.event_id)) events with
  | some pos => (events.set pos event, false)
  | none => (events ++ [event], true)

/-- A cache entry of the external keyed store: last-written value plus its
write timestamp (seconds). -/
structure DbEntry (V : Type) where
  value : V
  writtenAt : Nat
deriving DecidableEq, Repr

/-- Modelled from the spec: `Db::is_stale` of the external keyed store — an
absent entry is always stale, an absent TTL means always stale, and otherwise
the entry is stale iff its age exceeds the TTL. -/
def Db.is_stale {V : Type} (entry : Option (DbEntry V)) (ttl : Option Nat)
    (now : Nat) : Bool :=
  match entry, ttl with
  | none, _ => true
  | some _, none => true
  | some e, some t => decide (t < now - e.writtenAt)

/-- Outcome of one `EventService::update` call: the returned value, the entry
written to the `v2_events_raw` namespace, and whether the upstream fetch
(`rest_client::get_events`) was invoked. -/
structure UpdateOutcome where
  result : Option (List ApiGameEvent)
  written : DbEntry (List external.PlayByPlay)
  fetch_invoked : Bool
deriving DecidableEq, Repr

/-- `EventService::update` (`event_service.rs`) with the external
collaborators made explicit: `entry` is the current raw-cache entry for the
game, `now` the current time, and `fetched` what `rest_client::get_events`
would return if invoked. If the entry is not stale the cached value is served
(defaulting to empty), otherwise the fetch result is used (defaulting to
empty); the chosen sequence is written back unconditionally and returned
mapped through `into_mapped_event`. -/
def EventService.update (game_uuid : String) (throttle_s : Option Nat)
    (entry : Option (DbEntry (List external.PlayByPlay))) (now : Nat)
    (fetched : Option (List external.PlayByPlay)) : UpdateOutcome :=
  let raw_events :=
    if Db.is_stale entry throttle_s now = false then
      (entry.map (fun e => e.value)).getD []
    else
      fetched.getD []
  { result := some (raw_events.map (fun e => e.into_mapped_event game_uuid)),
    written := { value := raw_events, writtenAt := now },
    fetch_invoked := Db.is_stale entry throttle_s now }

end Shl

namespace Shl.external

/-- Modelled from the spec: one captioned statistic of
`models2::external::game_stats` — a caption such as `"G"` or `"SOG"` with a
home-team and an away-team value. -/
structure CaptionedStat where
  caption : String
  homeTeamValue : Int
  awayTeamValue : Int
deriving DecidableEq, Repr

/-- Modelled from the spec: one period entry of the breakdown; the source's
`period.value.to_str()` label is carried as the string itself. -/
structure PeriodStats where
  period : String
  statistics : List CaptionedStat
deriving DecidableEq, Repr

/-- Modelled from the spec: `models2::external::game_stats::GameStatsV2`. -/
structure GameStatsV2 where
  period_stats_breakdown : List PeriodStats
deriving DecidableEq, Repr

end Shl.external

namespace Shl

/-- `stats_service::GTeamStats`. -/
structure GTeamStats where
  g : Int
  sog : Int
  pim : Int
  fow : Int
deriving DecidableEq, Repr

/-- `stats_service::GHomeAwayStats`. -/
structure GHomeAwayStats where
  home : GTeamStats
  away : GTeamStats
deriving DecidableEq, Repr

/-- `impl From<GameStatsV2> for GHomeAwayStats` (`stats_service.rs`): pick
the `"Total"` period entry and look up each of the four captions
independently, defaulting each missing value to 0. -/
def GHomeAwayStats.from_game_stats (v : external.GameStatsV2) : GHomeAwayStats :=
  let stats := (v.period_stats_breakdown.find?
      (fun e => decide (e.period = "Total"))).map (fun e => e.statistics)
  let goals := stats.bind (fun e => e.find? (fun s => decide (s.caption = "G")))
  let sog := stats.bind (fun e => e.find? (fun s => decide (s.caption = "SOG")))
  let fow := stats.bind (fun e => e.find? (fun s => decide (s.caption = "FOWon")))
  let pim := stats.bind (fun e => e.find? (fun s => decide (s.caption = "PIM")))
  { home :=
      { g := (goals.map (fun e => e.homeTeamValue)).getD 0,
        sog := (sog.map (fun e => e.homeTeamValue)).getD 0,
        pim := (pim.map (fun e => e.homeTeamValue)).getD 0,
        fow := (fow.map (fun e => e.homeTeamValue)).getD 0 },
    away :=
      { g := (goals.map (fun e => e.awayTeamValue)).getD 0,
        sog := (sog.map (fun e => e.awayTeamValue)).getD 0,
        pim := (pim.map (fun e => e.awayTeamValue)).getD 0,
        fow := (fow.map (fun e => e.awayTeamValue)).getD 0 } }

end Shl

namespace Shl

theorem position_eq_none {α : Type} {p : α → Bool} {l : List α} :
    position p l = none ↔ ∀ a ∈ l, p a = false := by
  induction l with
  | nil => simp [position]
  | cons x t ih =>
    cases hx : p x <;> simp [position, hx, ih]

theorem position_lt_length {α : Type} {p : α → Bool} {l : List α} {i : Nat}
    (h : position p l = some i) : i < l.length := by
  induction l generalizing i with
  | nil => simp [position] at h
  | cons x t ih =>
    cases hx : p x with
    | true =>
      simp [position, hx] at h
      simp [← h]
    | false =>
      simp only [position, hx, if_false, Bool.false_eq_true, Option.map_eq_some'] at h
      obtain ⟨j, hj, rfl⟩ := h
      have := ih hj
      simp only [List.length_cons]
      omega

theorem position_getElem {α : Type} {p : α → Bool} {l : List α} {i : Nat}
    (h : position p l = some i) : ∃ a, l[i]? = some a ∧ p a = true := by
  induction l generalizing i with
  | nil => simp [position] at h
  | cons x t ih =>
    cases hx : p x with
    | true =>
      simp [position, hx] at h
      exact ⟨x, by simp [← h], hx⟩
    | false =>
      simp only [position, hx, if_false, Bool.false_eq_true, Option.map_eq_some'] at h
      obtain ⟨j, hj, rfl⟩ := h
      obtain ⟨a, ha, hpa⟩ := ih hj
      exact ⟨a, by simpa using ha, hpa⟩

theorem position_set {α : Type} {p : α → Bool} {l : List α} {i : Nat} {a : α}
    (h : position p l = some i) (ha : p a = true) :
    position p (l.set i a) = some i := by
  induction l generalizing i with
  | nil => simp [position] at h
  | cons x t ih =>
    cases hx : p x with
    | true =>
      simp [position, hx] at h
      subst h
      simp [position, ha]
    | false =>
      simp only [position, hx, if_false, Bool.false_eq_true, Option.map_eq_some'] at h
      obtain ⟨j, hj, rfl⟩ := h
      simp [position, hx, ih hj]

theorem position_append_of_none {α : Type} {p : α → Bool} {l : List α} {a : α}
    (h : position p l = none) (ha : p a = true) :
    position p (l ++ [a]) = some l.length := by
  induction l with
  | nil => simp [position, ha]
  | cons x t ih =>
    cases hx : p x with
    | true => simp [position, hx] at h
    | false =>
      simp only [position, hx, if_false, Bool.false_eq_true,
        Option.map_eq_none'] at h
      simp [position, hx, ih h]

theorem set_append_length {α : Type} (l : List α) (a b : α) :
    (l ++ [a]).set l.length b = l ++ [b] := by
  induction l with
  | nil => rfl
  | cons x t ih => simp [List.set, ih]

theorem set_eq_self_of_getElem? {α : Type} {l : List α} {i : Nat} {a : α}
    (h : l[i]? = some a) : l.set i a = l := by
  induction l generalizing i with
  | nil => simp at h
  | cons x t ih =>
    cases i with
    | zero => simp_all [List.set]
    | succ j =>
      simp only [List.getElem?_cons_succ] at h
      simp [List.set, ih h]

theorem wrap32_eq_of_range {n : Int} (h1 : -2147483648 ≤ n)
    (h2 : n ≤ 2147483647) : wrap32 n = n := by
  unfold wrap32
  rw [Int.emod_eq_of_lt (by omega) (by omega)]
  omega

theorem splitOnceList_append_singleton {c : Char} {a : List Char} (h : c ∉ a)
    (b : List Char) : splitOnceList [c] (a ++ c :: b) = some (a, b) := by
  induction a with
  | nil => simp [splitOnceList, startsWith]
  | cons x t ih =>
    have hx : ¬c = x := fun hc => h (hc ▸ List.mem_cons_self x t)
    have ht : c ∉ t := fun hc => h (List.mem_cons_of_mem x hc)
    simp [splitOnceList, startsWith, hx, ih ht]

theorem splitOnceList_eq_none_of_not_mem {c : Char} {a : List Char}
    (h : c ∉ a) : splitOnceList [c] a = none := by
  induction a with
  | nil => rfl
  | cons x t ih =>
    have hx : ¬c = x := fun hc => h (hc ▸ List.mem_cons_self x t)
    have ht : c ∉ t := fun hc => h (List.mem_cons_of_mem x hc)
    simp [splitOnceList, startsWith, hx, ih ht]

theorem splitOnce_colon (a b : String) (h : ':' ∉ a.data) :
    splitOnce ":" (a ++ ":" ++ b) = some (a, b) := by
  unfold splitOnce
  have hd : (a ++ ":" ++ b).data = a.data ++ ':' :: b.data := by
    simp [String.data_append]
  rw [hd]
  rw [show (":" : String).data = [':'] from rfl,
    splitOnceList_append_singleton h]
  rfl

theorem splitOnce_eq_none_of_no_colon (s : String) (h : ':' ∉ s.data) :
    splitOnce ":" s = none := by
  unfold splitOnce
  rw [show (":" : String).data = [':'] from rfl,
    splitOnceList_eq_none_of_not_mem h]
  rfl

end Shl

namespace Shl

/-- Any function of the exact shape of `EventService::store` /
`EventService::store_raw` (scan for the first entry with the incoming
record's key, replace in place if found, append otherwise) applied twice
with the same record is a no-op the second time, returning `false`. -/
theorem upsert_general_idem {α κ : Type} [DecidableEq κ] (k : α → κ)
    (F : List α → α → List α × Bool)
    (hF : ∀ es e, F es e =
      match position (fun x => decide (k x = k e)) es with
      | some pos => (es.set pos e, false)
      | none => (es ++ [e], true)) :
    ∀ (es : List α) (e : α), F (F es e).1 e = ((F es e).1, false) := by
  intro es e
  cases hpos : position (fun x => decide (k x = k e)) es with
  | some i =>
    have h1 : F es e = (es.set i e, false) := by rw [hF, hpos]
    have h2 : position (fun x => decide (k x = k e)) (es.set i e) = some i :=
      position_set hpos (by simp)
    rw [h1, hF]
    simp [h2, List.set_set]
  | none =>
    have h1 : F es e = (es ++ [e], true) := by rw [hF, hpos]
    have h2 : position (fun x => decide (k x = k e)) (es ++ [e]) = some es.length :=
      position_append_of_none hpos (by simp)
    rw [h1, hF]
    simp [h2, set_append_length]

/-- Any function of the shape of `EventService::store` / `store_raw`: a
second record with the key of an already-upserted first record replaces it in
place (same index, same length, the key occurring exactly once afterwards). -/
theorem upsert_general_replace {α κ : Type} [DecidableEq κ] (k : α → κ)
    (F : List α → α → List α × Bool)
    (hF : ∀ es e, F es e =
      match position (fun x => decide (k x = k e)) es with
      | some pos => (es.set pos e, false)
      | none => (es ++ [e], true)) :
    ∀ (l : List α) (r1 r2 : α), (l.map k).Nodup → k r1 = k r2 →
      ∃ i, ((F l r1).1)[i]? = some r1 ∧
        (F (F l r1).1 r2).1 = ((F l r1).1).set i r2 ∧
        ((F (F l r1).1 r2).1)[i]? = some r2 ∧
        (F (F l r1).1 r2).1.length = (F l r1).1.length ∧
        ((F (F l r1).1 r2).1.map k).count (k r2) = 1 := by
  intro l r1 r2 hnd hid
  have hpred : (fun x => decide (k x = k r2)) = (fun x => decide (k x = k r1)) := by
    funext x
    rw [hid]
  cases hpos : position (fun x => decide (k x = k r1)) l with
  | some j =>
    have hlt := position_lt_length hpos
    have h1 : F l r1 = (l.set j r1, false) := by rw [hF, hpos]
    have hget1 : (l.set j r1)[j]? = some r1 := List.getElem?_set_self hlt
    have hpos1 : position (fun x => decide (k x = k r1)) (l.set j r1) = some j :=
      position_set hpos (by simp)
    have hpos2 : position (fun x => decide (k x = k r2)) (l.set j r1) = some j := by
      rw [hpred]
      exact hpos1
    have h2 : F (l.set j r1) r2 = ((l.set j r1).set j r2, false) := by
      rw [hF, hpos2]
    have hkeyj : (l.map k)[j]? = some (k r1) := by
      obtain ⟨a, ha, hpa⟩ := position_getElem hpos
      rw [List.getElem?_map, ha]
      simp at hpa
      simp [hpa]
    have hkeys1 : (l.set j r1).map k = l.map k := by
      rw [List.map_set]
      exact set_eq_self_of_getElem? hkeyj
    have hkeys2 : ((l.set j r1).set j r2).map k = (l.set j r1).map k := by
      rw [List.map_set]
      apply set_eq_self_of_getElem?
      rw [hkeys1, hkeyj, hid]
    refine ⟨j, ?_, ?_, ?_, ?_, ?_⟩
    · rw [h1]
      exact hget1
    · rw [h1]
      simp [h2]
    · rw [h1, h2]
      exact List.getElem?_set_self (by simpa using hlt)
    · rw [h1, h2]
      simp
    · rw [h1, h2]
      simp only
      rw [hkeys2, hkeys1]
      have hmem : k r2 ∈ List.map k l := by
        have hj2 : (List.map k l)[j]? = some (k r2) := by rw [hkeyj, hid]
        exact List.getElem?_mem hj2
      exact List.count_eq_one_of_mem hnd hmem
  | none =>
    have h1 : F l r1 = (l ++ [r1], true) := by rw [hF, hpos]
    have hpos1 : position (fun x => decide (k x = k r1)) (l ++ [r1]) = some l.length :=
      position_append_of_none hpos (by simp)
    have hpos2 : position (fun x => decide (k x = k r2)) (l ++ [r1]) = some l.length := by
      rw [hpred]
      exact hpos1
    have h2 : F (l ++ [r1]) r2 = ((l ++ [r1]).set l.length r2, false) := by
      rw [hF, hpos2]
    refine ⟨l.length, ?_, ?_, ?_, ?_, ?_⟩
    · rw [h1]
      exact List.getElem?_concat_length l r1
    · rw [h1]
      simp [h2]
    · rw [h1, h2, set_append_length]
      exact List.getElem?_concat_length l r2
    · rw [h1, h2]
      simp
    · rw [h1, h2, set_append_length, List.map_append, List.count_append]
      have h0 : (l.map k).count (k r2) = 0 := by
        rw [List.count_eq_zero]
        intro hmem
        obtain ⟨e, he, heq⟩ := List.mem_map.mp hmem
        have hne := position_eq_none.mp hpos e he
        simp at hne
        exact hne (heq.trans hid.symm)
      simp [h0, List.count_singleton]

/-- Any function of the shape of `EventService::store` / `store_raw` appends
a record whose key is absent and reports `true`. -/
theorem upsert_general_append {α κ : Type} [DecidableEq κ] (k : α → κ)
    (F : List α → α → List α × Bool)
    (hF : ∀ es e, F es e =
      match position (fun x => decide (k x = k e)) es with
      | some pos => (es.set pos e, false)
      | none => (es ++ [e], true)) :
    ∀ (l : List α) (r : α), (∀ e ∈ l, k e ≠ k r) → F l r = (l ++ [r], true) := by
  intro l r h
  have hpos : position (fun x => decide (k x = k r)) l = none := by
    rw [position_eq_none]
    intro a ha
    simpa using h a ha
  rw [hF, hpos]

end Shl

namespace Shl

/-- Helper for the time-on-ice claims: on an input of the form
`a ++ ":" ++ b` with no colon in `a`, `parse_toi` parses `a` as minutes and
`b` as seconds. -/
theorem parse_toi_append (a b : String) (h : ':' ∉ a.data) :
    parse_toi (a ++ ":" ++ b) =
      wrap32 (parse_i32_default a * 60 + parse_i32_default b) := by
  unfold parse_toi
  rw [splitOnce_colon a b h]
  rfl

/-- C1: the spec's expected split of
`"5 Karl Karlsson utvisas 2 min, Hooking"` is wrong about whitespace: the
constructed reason is `" Hooking"` (the space after the comma is kept), not
`"Hooking"`, so the claimed `PenaltyInfo` value is not produced. -/
theorem penalty_split_example_cex :
    PenaltyInfo.new "5 Karl Karlsson utvisas 2 min, Hooking" ⟨"LHC"⟩ ≠
      { team := "LHC", player := some ⟨"Karl", "Karlsson", "5"⟩,
        reason := some "Hooking", penalty := some "2 min" } := by
  decide

/-- C1 (amended): for the description
`"5 Karl Karlsson utvisas 2 min, Hooking"`, `PenaltyInfo::new` yields jersey
`"5"`, first name `"Karl"`, family name `" Karlsson "` (the space before the
marker and the space left by removing `"5 Karl"` are kept), penalty
`"2 min"`, and reason `" Hooking"` (the space after the comma is kept). -/
theorem penalty_split_example_amended :
    PenaltyInfo.new "5 Karl Karlsson utvisas 2 min, Hooking" ⟨"LHC"⟩ =
      { team := "LHC", player := some ⟨"Karl", " Karlsson ", "5"⟩,
        reason := some " Hooking", penalty := some "2 min" } := by
  decide

/-- C2: a description without `"utvisas "` does not leave all three optional
fields absent: penalty and reason are `none`, but the player field is
`some` (player parsing is infallible, so the empty prefix still parses). -/
theorem penalty_no_marker_cex :
    splitOnce "utvisas " "Too many men on ice" = none ∧
    (PenaltyInfo.new "Too many men on ice" ⟨"LHC"⟩).player ≠ none := by
  decide

/-- C2 (amended): for every description in which `"utvisas "` does not occur,
`PenaltyInfo::new` leaves penalty and reason absent and sets the player to
`some` all-empty player (parsed from the empty default prefix); the fields
are never partially populated from a failed split. -/
theorem penalty_no_marker_amended :
    ∀ (description : String) (p : external.Penalty),
      splitOnce "utvisas " description = none →
      PenaltyInfo.new description p =
        { team := p.team, player := some ⟨"", "", ""⟩,
          reason := none, penalty := none } := by
  intro d p h
  unfold PenaltyInfo.new
  rw [h]
  rfl

theorem penalty_no_marker_amended_witness :
    PenaltyInfo.new "Too many men" ⟨"FHC"⟩ =
      { team := "FHC", player := some ⟨"", "", ""⟩,
        reason := none, penalty := none } :=
  penalty_no_marker_amended "Too many men" ⟨"FHC"⟩ (by decide)

/-- C3: `EventService::store` and `EventService::store_raw` are idempotent —
upserting the identical record a second time leaves the stored sequence
unchanged in content and order, and the second call returns `false`. -/
theorem store_upsert_idempotent :
    (∀ (events : List ApiGameEvent) (event : ApiGameEvent),
      EventService.store (EventService.store events event).1 event =
        ((EventService.store events event).1, false)) ∧
    (∀ (events : List external.PlayByPlay) (event : external.PlayByPlay),
      EventService.store_raw (EventService.store_raw events event).1 event =
        ((EventService.store_raw events event).1, false)) :=
  ⟨upsert_general_idem (fun e => e.event_id) EventService.store
      (fun _ _ => rfl),
   upsert_general_idem (fun e => e.eventId) EventService.store_raw
      (fun _ _ => rfl)⟩

/-- C4: for a stored sequence with pairwise-distinct identities, upserting a
record and then a second record with the same identity replaces the first in
place (same index), keeps the length, and leaves exactly one occurrence of
that identity; a record whose identity is absent is appended at the end with
the call returning `true`. Both `store` (identity `event_id`) and
`store_raw` (identity `eventId`) are covered. -/
theorem store_merge_by_identity :
    ((∀ (l : List ApiGameEvent) (r1 r2 : ApiGameEvent),
        (l.map (fun e => e.event_id)).Nodup → r1.event_id = r2.event_id →
        ∃ i, ((EventService.store l r1).1)[i]? = some r1 ∧
          (EventService.store (EventService.store l r1).1 r2).1 =
            ((EventService.store l r1).1).set i r2 ∧
          ((EventService.store (EventService.store l r1).1 r2).1)[i]? =
            some r2 ∧
          (EventService.store (EventService.store l r1).1 r2).1.length =
            (EventService.store l r1).1.length ∧
          ((EventService.store (EventService.store l r1).1 r2).1.map
              (fun e => e.event_id)).count r2.event_id = 1) ∧
      (∀ (l : List ApiGameEvent) (r : ApiGameEvent),
        (∀ e ∈ l, e.event_id ≠ r.event_id) →
        EventService.store l r = (l ++ [r], true))) ∧
    ((∀ (l : List external.PlayByPlay) (r1 r2 : external.PlayByPlay),
        (l.map (fun e => e.eventId)).Nodup → r1.eventId = r2.eventId →
        ∃ i, ((EventService.store_raw l r1).1)[i]? = some r1 ∧
          (EventService.store_raw (EventService.store_raw l r1).1 r2).1 =
            ((EventService.store_raw l r1).1).set i r2 ∧
          ((EventService.store_raw (EventService.store_raw l r1).1 r2).1)[i]? =
            some r2 ∧
          (EventService.store_raw (EventService.store_raw l r1).1 r2).1.length =
            (EventService.store_raw l r1).1.length ∧
          ((EventService.store_raw (EventService.store_raw l r1).1 r2).1.map
              (fun e => e.eventId)).count r2.eventId = 1) ∧
      (∀ (l : List external.PlayByPlay) (r : external.PlayByPlay),
        (∀ e ∈ l, e.eventId ≠ r.eventId) →
        EventService.store_raw l r = (l ++ [r], true))) :=
  ⟨⟨upsert_general_replace (fun e => e.event_id) EventService.store
        (fun _ _ => rfl),
    upsert_general_append (fun e => e.event_id) EventService.store
        (fun _ _ => rfl)⟩,
   ⟨upsert_general_replace (fun e => e.eventId) EventService.store_raw
        (fun _ _ => rfl),
    upsert_general_append (fun e => e.eventId) EventService.store_raw
        (fun _ _ => rfl)⟩⟩

/-- Two sample domain events sharing the identity `"1"`, for the witness. -/
def sampleEventA : ApiGameEvent :=
  { game_uuid := "g", event_id := "1", revision := 0, status := 0,
    gametime := "00:00", description := "d1", info := .GameStart }

/-- A second sample event with the same identity as `sampleEventA`. -/
def sampleEventB : ApiGameEvent :=
  { game_uuid := "g", event_id := "1", revision := 1, status := 0,
    gametime := "00:01", description := "d2", info := .Timeout }

theorem store_merge_by_identity_witness :
    ∃ i, ((EventService.store [] sampleEventA).1)[i]? = some sampleEventA ∧
      (EventService.store (EventService.store [] sampleEventA).1
          sampleEventB).1 =
        ((EventService.store [] sampleEventA).1).set i sampleEventB ∧
      ((EventService.store (EventService.store [] sampleEventA).1
          sampleEventB).1)[i]? = some sampleEventB ∧
      (EventService.store (EventService.store [] sampleEventA).1
          sampleEventB).1.length =
        (EventService.store [] sampleEventA).1.length ∧
      ((EventService.store (EventService.store [] sampleEventA).1
          sampleEventB).1.map (fun e => e.event_id)).count
          sampleEventB.event_id = 1 :=
  store_merge_by_identity.1.1 [] sampleEventA sampleEventB (by simp) rfl

/-- C5: with TTL `T`, an `update` at time `t1` after a first `update` at
time `t0` (which stamps the cache entry with `t0`) does not invoke the fetch
when `t1 - t0 ≤ T` and returns the stored value mapped to domain events,
while an `update` with `T < t1 - t0` does invoke the fetch. -/
theorem update_staleness_gate :
    ∀ (uuid : String) (T t0 t1 : Nat) (v : List external.PlayByPlay)
      (f1 : Option (List external.PlayByPlay)),
      (t1 - t0 ≤ T →
        EventService.update uuid (some T) (some ⟨v, t0⟩) t1 f1 =
          { result := some (v.map (fun e => e.into_mapped_event uuid)),
            written := ⟨v, t1⟩, fetch_invoked := false }) ∧
      (T < t1 - t0 →
        (EventService.update uuid (some T) (some ⟨v, t0⟩) t1 f1).fetch_invoked
          = true) ∧
      (∀ (entry0 : Option (DbEntry (List external.PlayByPlay)))
        (f0 : Option (List external.PlayByPlay)),
        (EventService.update uuid (some T) entry0 t0 f0).written.writtenAt
          = t0) := by
  intro uuid T t0 t1 v f1
  refine ⟨fun h => ?_, fun h => ?_, fun entry0 f0 => rfl⟩
  · have hs : Db.is_stale (some ⟨v, t0⟩) (some T) t1 = false := by
      simp only [Db.is_stale, decide_eq_false_iff_not]
      omega
    simp [EventService.update, hs]
  · have hs : Db.is_stale (some ⟨v, t0⟩) (some T) t1 = true := by
      simp only [Db.is_stale, decide_eq_true_eq]
      omega
    simp [EventService.update, hs]

theorem update_staleness_gate_witness :
    (EventService.update "game" (some 10) (some ⟨[], 0⟩) 5 none =
      { result := some (List.map
          (fun e : external.PlayByPlay => e.into_mapped_event "game") []),
        written := ⟨[], 5⟩, fetch_invoked := false }) ∧
    (EventService.update "game" (some 10) (some ⟨[], 0⟩) 11 none).fetch_invoked
      = true :=
  ⟨(update_staleness_gate "game" 10 0 5 [] none).1 (by decide),
   (update_staleness_gate "game" 10 0 11 [] none).2.1 (by decide)⟩

/-- C6: when the raw-cache entry is stale and the upstream fetch returns
nothing, `EventService::update` still writes an empty sequence to the raw
cache and returns an empty (non-error) sequence of domain events. -/
theorem update_fetch_failure_empty :
    ∀ (uuid : String) (ttl : Option Nat)
      (entry : Option (DbEntry (List external.PlayByPlay))) (now : Nat),
      Db.is_stale entry ttl now = true →
      EventService.update uuid ttl entry now none =
        { result := some [], written := ⟨[], now⟩, fetch_invoked := true } := by
  intro uuid ttl entry now h
  simp [EventService.update, h]

theorem update_fetch_failure_empty_witness :
    EventService.update "game" (some 10) none 0 none =
      { result := some [], written := ⟨[], 0⟩, fetch_invoked := true } :=
  update_fetch_failure_empty "game" (some 10) none 0 rfl

/-- C7: a raw period-marker event maps to `PeriodStart` iff its embedded
game-status string equals `"Playing"` exactly, and to `PeriodEnd` for every
other string. -/
theorem to_type_period_classification :
    ∀ (e : external.PlayByPlay) (a : external.Period),
      e.«class» = external.PlayByPlayType.Period a →
      ((e.to_type = ApiEventType.PeriodStart ↔ a.extra.gameStatus = "Playing") ∧
        (e.to_type = ApiEventType.PeriodEnd ↔ a.extra.gameStatus ≠ "Playing")) := by
  intro e a h
  by_cases hg : a.extra.gameStatus = "Playing" <;>
    simp [external.PlayByPlay.to_type, h, hg]

theorem to_type_period_classification_witness :
    ((external.PlayByPlay.mk 1 0 1 "00:00" "Periodstart"
        (.Period ⟨⟨"Playing"⟩⟩)).to_type = ApiEventType.PeriodStart ↔
      (external.Period.mk ⟨"Playing"⟩).extra.gameStatus = "Playing") ∧
    ((external.PlayByPlay.mk 1 0 1 "00:00" "Periodstart"
        (.Period ⟨⟨"Playing"⟩⟩)).to_type = ApiEventType.PeriodEnd ↔
      (external.Period.mk ⟨"Playing"⟩).extra.gameStatus ≠ "Playing") :=
  to_type_period_classification _ _ rfl

/-- C8: `parse_toi` splits on the first colon into minutes and seconds, each
part parsed as `i32` defaulting to 0, and the result is minutes×60 + seconds
(exactly so whenever that value is in `i32` range, and modulo `i32`
wrap-around in general); when no colon occurs at all both parts default, so
the result is 0; in particular `"12:34"` gives 754 and `""` gives 0. -/
theorem parse_toi_spec :
    (∀ a b : String, ':' ∉ a.data →
      parse_toi (a ++ ":" ++ b) =
        wrap32 (parse_i32_default a * 60 + parse_i32_default b)) ∧
    (∀ a b : String, ':' ∉ a.data →
      -2147483648 ≤ parse_i32_default a * 60 + parse_i32_default b →
      parse_i32_default a * 60 + parse_i32_default b ≤ 2147483647 →
      parse_toi (a ++ ":" ++ b) =
        parse_i32_default a * 60 + parse_i32_default b) ∧
    (∀ s : String, ':' ∉ s.data → parse_toi s = 0) ∧
    parse_toi "12:34" = 754 ∧
    parse_toi "" = 0 := by
  refine ⟨parse_toi_append, fun a b h h1 h2 => ?_, fun s h => ?_,
    by decide, by decide⟩
  · rw [parse_toi_append a b h]
    exact wrap32_eq_of_range h1 h2
  · unfold parse_toi
    rw [splitOnce_eq_none_of_no_colon s h]
    decide

theorem parse_toi_spec_witness :
    parse_toi ("12" ++ ":" ++ "34") =
      parse_i32_default "12" * 60 + parse_i32_default "34" :=
  parse_toi_spec.2.1 "12" "34" (by decide) (by decide) (by decide)

/-- C9: a breakdown without a `"Total"` period entry yields all four team
statistics as zero for both teams; each caption is looked up independently,
so a `"Total"` entry missing only the `"G"` caption zeroes only the goals
while the other three statistics keep their listed values. -/
theorem stats_total_missing_zero :
    (∀ v : external.GameStatsV2,
      (∀ e ∈ v.period_stats_breakdown, e.period ≠ "Total") →
      GHomeAwayStats.from_game_stats v = ⟨⟨0, 0, 0, 0⟩, ⟨0, 0, 0, 0⟩⟩) ∧
    GHomeAwayStats.from_game_stats
        ⟨[⟨"Total", [⟨"SOG", 10, 20⟩, ⟨"PIM", 4, 6⟩, ⟨"FOWon", 30, 25⟩]⟩]⟩ =
      ⟨⟨0, 10, 4, 30⟩, ⟨0, 20, 6, 25⟩⟩ := by
  constructor
  · intro v h
    have hf : v.period_stats_breakdown.find?
        (fun e => decide (e.period = "Total")) = none :=
      List.find?_eq_none.mpr (fun x hx => by simpa using h x hx)
    simp [GHomeAwayStats.from_game_stats, hf]
  · decide

theorem stats_total_missing_zero_witness :
    GHomeAwayStats.from_game_stats ⟨[⟨"Period1", [⟨"G", 5, 3⟩]⟩]⟩ =
      ⟨⟨0, 0, 0, 0⟩, ⟨0, 0, 0, 0⟩⟩ :=
  stats_total_missing_zero.1 ⟨[⟨"Period1", [⟨"G", 5, 3⟩]⟩]⟩ (by decide)

/-- C10: `Player::from_str` is infallible — every input (including the empty
string) yields `Ok`, with possibly empty jersey and name components, so
parsing any string as a player always yields `some` player. -/
theorem player_from_str_infallible :
    (∀ s : String, ∃ pl : Player, Player.from_str s = .ok pl) ∧
    Player.from_str "" = .ok ⟨"", "", ""⟩ ∧
    (∀ s : String, (parse_player s).isSome = true) :=
  ⟨fun _ => ⟨_, rfl⟩, rfl, fun _ => rfl⟩

end Shl
